import Mathlib

/-!
Verification of the "Who Dat Dev?" guessing-game service.

The repository's boundary layer (`main.py`) is embedded faithfully below:
session lookup, answer validation, guess confirmation and state
save/load are translated operation by operation.  The inference core
(the `Akinator` class of the `algorithm` module) is not part of the
available sources, so its operations are modelled from the natural
language specification; every such definition carries a doc comment
saying so.  Scores and answer weights are rationals; the canonical
answer weights 0, 1/4, 3/4, 1 are exactly representable.
-/

namespace WhoDatDev

/-- An entity of the catalog: identifier, display name, and an
association list from attribute key to a weight in `[0,1]`. -/
structure Entity where
  id : String
  name : String
  attrs : List (String × ℚ)
deriving DecidableEq

/-- A question of the catalog: identifier, the attribute key it probes,
and display text. -/
structure Question where
  id : String
  attr : String
  text : String
deriving DecidableEq

/-- The immutable catalog of entities and questions, loaded once. -/
structure Catalog where
  entities : List Entity
  questions : List Question
deriving DecidableEq

/-- The mutable game state: per-entity running scores, set of asked
question identifiers, set of excluded entity identifiers, and the count
of answers processed. -/
structure GameState where
  scores : List (String × ℚ)
  asked : List String
  excludedEntities : List String
  turnCount : Nat
deriving DecidableEq

/-- Modelled from the spec: configuration knobs of the GuessController,
`{marginThreshold, maxTurns, topN}`. -/
structure Config where
  marginThreshold : ℚ
  maxTurns : Nat
  topN : Nat
deriving DecidableEq

/-- Ordering used by `rank`: descending by score, ties broken by entity
identifier ascending. -/
def rankLe (a b : String × ℚ) : Prop :=
  b.2 < a.2 ∨ (a.2 = b.2 ∧ a.1 ≤ b.1)

instance : DecidableRel rankLe := fun a b => by
  unfold rankLe; infer_instance

instance : IsTotal (String × ℚ) rankLe := by
  constructor
  intro a b
  rcases lt_trichotomy a.2 b.2 with h | h | h
  · exact Or.inr (Or.inl h)
  · rcases le_total a.1 b.1 with h1 | h1
    · exact Or.inl (Or.inr ⟨h, h1⟩)
    · exact Or.inr (Or.inr ⟨h.symm, h1⟩)
  · exact Or.inl (Or.inl h)

instance : IsTrans (String × ℚ) rankLe := by
  constructor
  intro a b c hab hbc
  rcases hab with h1 | ⟨h1, h1'⟩
  · rcases hbc with h2 | ⟨h2, _⟩
    · exact Or.inl (h2.trans h1)
    · exact Or.inl (h2 ▸ h1)
  · rcases hbc with h2 | ⟨h2, h2'⟩
    · exact Or.inl (by rw [h1]; exact h2)
    · exact Or.inr ⟨h1.trans h2, h1'.trans h2'⟩

/-- Modelled from the spec: `rank(scores, excluded, topN)` — filter out
excluded entities, sort descending by score with ties broken by entity
identifier, return the first `topN`. -/
def rank (scores : List (String × ℚ)) (excluded : List String) (topN : Nat) :
    List (String × ℚ) :=
  ((scores.filter (fun p => !(excluded.contains p.1))).insertionSort rankLe).take topN

/-- Modelled from the spec: the per-entity score contribution of one
answer, the spec's example `1 − 2·distance` where
`distance = |attributeWeight − answerWeight|`; exact agreement maximizes
it and maximal disagreement minimizes it. -/
def contribution (w a : ℚ) : ℚ := 1 - 2 * |w - a|

/-- Modelled from the spec: an entity's weight for an attribute key,
looked up in its attribute map; an absent key is treated as the neutral
weight `1/2`. -/
def entityWeight (c : Catalog) (id key : String) : ℚ :=
  match c.entities.find? (fun e => e.id == id) with
  | some e => (e.attrs.lookup key).getD (1/2)
  | none => 1/2

/-- Modelled from the spec: `ScoreModel.update` lifted to the whole
state, as `process_answer` applies it — every non-excluded entity's
score gains `contribution`, entities in `excludedEntities` are skipped
entirely, the questions bound to the answered attribute are marked
asked, and `turnCount` is incremented. -/
def processAnswer (c : Catalog) (st : GameState) (key : String) (a : ℚ) :
    GameState :=
  { st with
    scores := st.scores.map (fun p =>
      if st.excludedEntities.contains p.1 then p
      else (p.1, p.2 + contribution (entityWeight c p.1 key) a)),
    asked := st.asked ++ ((c.questions.filter (fun q => q.attr == key)).map Question.id),
    turnCount := st.turnCount + 1 }

/-- Modelled from the spec: `GuessController.reject` adds the entity to
`excludedEntities`; nothing else changes. -/
def rejectGuess (st : GameState) (id : String) : GameState :=
  { st with excludedEntities := id :: st.excludedEntities }

/-- Modelled from the spec: a fresh game — baseline score `0` for every
catalog entity, nothing asked, nothing excluded, zero turns. -/
def initGame (c : Catalog) : GameState :=
  { scores := c.entities.map (fun e => (e.id, 0))
    asked := []
    excludedEntities := []
    turnCount := 0 }

/-- Width of the top-ranked candidate window the QuestionSelector
inspects (the spec's tunable `K`, e.g. top 10). -/
def topWindow : Nat := 10

/-- Modelled from the spec: a scaled variance of a list of weights,
used as the discriminative value of an attribute across the top-ranked
candidates (`Σ (n·x − Σx)²`; positive iff the weights are not all
equal, so it orders questions exactly as variance does). -/
def disc (ws : List ℚ) : ℚ :=
  (ws.map (fun x => (x * ws.length - ws.sum) ^ 2)).sum

/-- Modelled from the spec: the discriminative value of an attribute
key — the spread of its weights among the top-ranked non-excluded
candidates. -/
def discValue (c : Catalog) (scores : List (String × ℚ)) (excluded : List String)
    (key : String) : ℚ :=
  disc ((rank scores excluded topWindow).map (fun p => entityWeight c p.1 key))

/-- Modelled from the spec: the eligible questions — not yet asked and
still discriminating among the top-ranked candidates. -/
def eligible (c : Catalog) (asked : List String) (scores : List (String × ℚ))
    (excluded : List String) : List Question :=
  c.questions.filter (fun q =>
    !(asked.contains q.id) && decide (0 < discValue c scores excluded q.attr))

/-- Keep the candidate with the larger discriminative value, ties going
to the lower question identifier. -/
def pickBetter (a b : Question × ℚ) : Question × ℚ :=
  if b.2 < a.2 then a
  else if a.2 < b.2 then b
  else if a.1.id ≤ b.1.id then a else b

/-- Modelled from the spec: `QuestionSelector.next` — among eligible
questions choose the one with the highest discriminative value, ties
broken by lowest question identifier; `none` when no eligible question
remains. -/
def selectQuestion (c : Catalog) (asked : List String) (scores : List (String × ℚ))
    (excluded : List String) : Option Question :=
  match (eligible c asked scores excluded).map
      (fun q => (q, discValue c scores excluded q.attr)) with
  | [] => none
  | x :: xs => some (xs.foldl pickBetter x).1

/-- Modelled from the spec: the margin trigger — the top candidate's
score exceeds the runner-up's by at least the configured margin (a lone
candidate trivially satisfies it, an empty ranking cannot). -/
def marginReached (cfg : Config) (scores : List (String × ℚ))
    (excluded : List String) : Bool :=
  match rank scores excluded scores.length with
  | [] => false
  | [_] => true
  | a :: b :: _ => decide (cfg.marginThreshold ≤ a.2 - b.2)

/-- Modelled from the spec: `shouldGuess` — stop asking when the margin
trigger fires, or no discriminating question remains, or the turn
ceiling is reached. -/
def shouldGuess (cfg : Config) (c : Catalog) (asked : List String)
    (scores : List (String × ℚ)) (excluded : List String) (turnCount : Nat) : Bool :=
  if marginReached cfg scores excluded then true
  else if (selectQuestion c asked scores excluded).isNone then true
  else decide (cfg.maxTurns ≤ turnCount)

/-- Modelled from the spec: the guess the engine proposes — the head of
the full ranking over non-excluded entities. -/
def proposeGuess (st : GameState) : Option (String × ℚ) :=
  (rank st.scores st.excludedEntities st.scores.length).head?

/-- Modelled from the spec: the top candidates shown on a guess
(`_get_top_candidates(n)`). -/
def topCandidates (st : GameState) (n : Nat) : List (String × ℚ) :=
  rank st.scores st.excludedEntities n

/-- A JSON value, the image of Python's `json` module on the state
records this service stores (numbers, strings, arrays, objects). -/
inductive JValue where
  | num (q : ℚ)
  | str (s : String)
  | arr (l : List JValue)
  | obj (l : List (String × JValue))

/-- Modelled from the spec: the decode failures of the StateCodec. -/
inductive StateCorruptError where
  | missingField (field : String)
  | malformed
  | unknownEntity (id : String)
  | unknownQuestion (id : String)
deriving DecidableEq

/-- The entity identifiers of a catalog. -/
def entityIds (c : Catalog) : List String := c.entities.map Entity.id

/-- The question identifiers of a catalog. -/
def questionIds (c : Catalog) : List String := c.questions.map Question.id

/-- Modelled from the spec: `StateCodec.encode` — the flat record
holding `scores`, `asked`, `excludedEntities` and `turnCount`, as
`get_state` hands it to `json.dumps`. -/
def encodeState (st : GameState) : JValue :=
  JValue.obj
    [("scores", JValue.obj (st.scores.map (fun p => (p.1, JValue.num p.2)))),
     ("asked", JValue.arr (st.asked.map JValue.str)),
     ("excluded_entities", JValue.arr (st.excludedEntities.map JValue.str)),
     ("turn_count", JValue.num st.turnCount)]

/-- Fetch a required field of a record, failing when it is absent. -/
def getField (l : List (String × JValue)) (k : String) :
    Except StateCorruptError JValue :=
  match l.lookup k with
  | some v => Except.ok v
  | none => Except.error (StateCorruptError.missingField k)

/-- Expect an object value. -/
def asObj : JValue → Except StateCorruptError (List (String × JValue))
  | JValue.obj l => Except.ok l
  | _ => Except.error StateCorruptError.malformed

/-- Expect an array value. -/
def asArr : JValue → Except StateCorruptError (List JValue)
  | JValue.arr l => Except.ok l
  | _ => Except.error StateCorruptError.malformed

/-- Modelled from the spec: decode the `scores` record, failing on an
entity identifier absent from the catalog or a non-numeric score. -/
def decodeScores (c : Catalog) :
    List (String × JValue) → Except StateCorruptError (List (String × ℚ))
  | [] => Except.ok []
  | (k, JValue.num q) :: t =>
    if (entityIds c).contains k then
      match decodeScores c t with
      | Except.ok r => Except.ok ((k, q) :: r)
      | Except.error e => Except.error e
    else Except.error (StateCorruptError.unknownEntity k)
  | (_, _) :: _ => Except.error StateCorruptError.malformed

/-- Modelled from the spec: decode a list of identifiers, failing on an
identifier outside `valid` or a non-string element. -/
def decodeIds (valid : List String) (err : String → StateCorruptError) :
    List JValue → Except StateCorruptError (List String)
  | [] => Except.ok []
  | JValue.str s :: t =>
    if valid.contains s then
      match decodeIds valid err t with
      | Except.ok r => Except.ok (s :: r)
      | Except.error e => Except.error e
    else Except.error (err s)
  | _ :: _ => Except.error StateCorruptError.malformed

/-- Modelled from the spec: decode the turn counter, which must be a
non-negative integer. -/
def decodeTurn : JValue → Except StateCorruptError Nat
  | JValue.num q =>
    if q.den = 1 ∧ 0 ≤ q.num then Except.ok q.num.toNat
    else Except.error StateCorruptError.malformed
  | _ => Except.error StateCorruptError.malformed

/-- Modelled from the spec: `StateCodec.decode` — rebuild a `GameState`
from a record, failing with a `StateCorruptError` when a required field
is missing or malformed or when the record references an entity or
question identifier absent from the supplied catalog; it never
substitutes a default. -/
def decodeState (c : Catalog) (j : JValue) : Except StateCorruptError GameState := do
  let fields ← asObj j
  let sj ← asObj (← getField fields "scores")
  let aj ← asArr (← getField fields "asked")
  let ej ← asArr (← getField fields "excluded_entities")
  let tj ← getField fields "turn_count"
  let s ← decodeScores c sj
  let a ← decodeIds (questionIds c) StateCorruptError.unknownQuestion aj
  let e ← decodeIds (entityIds c) StateCorruptError.unknownEntity ej
  let t ← decodeTurn tj
  Except.ok ⟨s, a, e, t⟩

/-- An HTTP error as `fastapi.HTTPException` carries it. -/
structure HTTPError where
  code : Nat
  detail : String
deriving DecidableEq

/-- The session table: one serialized state blob per session
identifier (`game_sessions`). -/
abbrev Db := List (Nat × JValue)

/-- Embeds `get_akinator_instance` of `main.py`: fetch the session row
(404 when absent), deserialize it into a fresh instance, and surface
any failure inside `_load_state` as a 500 error rather than a partially
loaded state. -/
def get_akinator_instance (c : Catalog) (db : Db) (session_id : Nat) :
    Except HTTPError GameState :=
  match db.lookup session_id with
  | none => Except.error ⟨404, "Session not found."⟩
  | some blob =>
    match decodeState c blob with
    | Except.ok st => Except.ok st
    | Except.error _ => Except.error ⟨500, "Failed to load game state."⟩

/-- Embeds `save_akinator_state` of `main.py`: re-encode the state and
update the session's row. -/
def save_akinator_state (db : Db) (session_id : Nat) (st : GameState) : Db :=
  db.map (fun r => if r.1 = session_id then (r.1, encodeState st) else r)

/-- The request body of `POST /questions`. -/
structure AnswerPayload where
  session_id : Nat
  attribute_key : String
  answer : String

/-- Embeds the `valid_answers` table of `submit_answer` in `main.py`. -/
def valid_answers : List (String × ℚ) :=
  [("no", 0), ("probably no", 1/4), ("probably yes", 3/4), ("yes", 1)]

/-- Python's `str.lower()` on the ASCII answer words: lowercase every
character. -/
def pyLower (s : String) : String := ⟨s.data.map Char.toLower⟩

/-- The answer-string mapping of `submit_answer`: lowercase the
submitted answer and look it up in `valid_answers`. -/
def answerWeight (s : String) : Option ℚ := valid_answers.lookup (pyLower s)

/-- Embeds the `submit_answer` handler of `main.py`: load the session's
state, reject an answer outside `valid_answers` with a 400 error before
`process_answer` runs and before anything is saved, otherwise process
the answer and save the updated state. -/
def submit_answer (c : Catalog) (db : Db) (p : AnswerPayload) :
    Except HTTPError (Db × GameState) :=
  match get_akinator_instance c db p.session_id with
  | Except.error e => Except.error e
  | Except.ok st =>
    match answerWeight p.answer with
    | none => Except.error ⟨400, "Invalid answer."⟩
    | some w =>
      let st' := processAnswer c st p.attribute_key w
      Except.ok (save_akinator_state db p.session_id st', st')

/-- The session table after a `submit_answer` request: the handler's
updated table on success, the untouched table when the handler aborted
with an error. -/
def submitAnswerDb (c : Catalog) (db : Db) (p : AnswerPayload) : Db :=
  match submit_answer c db p with
  | Except.ok (db', _) => db'
  | Except.error _ => db

/-- The request body of `POST /confirm_guess`. -/
structure GuessConfirmationPayload where
  session_id : Nat
  guessed_character_name : String
  user_confirms_correct : Bool

/-- The response of `confirm_akinator_guess` (the fields the JSON
response carries beyond the session identifier and message text). -/
structure ConfirmResponse where
  outcome : String
  guess : String
  certainty : ℚ
  top_candidates : List (String × ℚ)
deriving DecidableEq

/-- Modelled from the spec: `process_mistaken_guess` rejects the
guessed entity, adding it to `excludedEntities`. -/
def process_mistaken_guess (st : GameState) (name : String) : GameState :=
  rejectGuess st name

/-- Embeds the `confirm_akinator_guess` handler of `main.py`: on a
confirmed guess, delete the session row and answer `finished_won` with
the caller-supplied name and certainty 1; on a rejected guess, exclude
the guessed entity and save. -/
def confirm_akinator_guess (c : Catalog) (db : Db) (p : GuessConfirmationPayload) :
    Except HTTPError (Db × ConfirmResponse) :=
  match get_akinator_instance c db p.session_id with
  | Except.error e => Except.error e
  | Except.ok st =>
    if p.user_confirms_correct then
      Except.ok (db.filter (fun r => !(r.1 == p.session_id)),
        { outcome := "finished_won"
          guess := p.guessed_character_name
          certainty := 1
          top_candidates := topCandidates st 5 })
    else
      let st' := process_mistaken_guess st p.guessed_character_name
      Except.ok (save_akinator_state db p.session_id st',
        { outcome := "playing"
          guess := p.guessed_character_name
          certainty := 0
          top_candidates := topCandidates st' 5 })

/-- A move applied to a game state after the game started: processing
an answer, rejecting a proposed guess, or asking for the next question
(which reads but does not change the state). -/
inductive Op where
  | answer (key : String) (w : ℚ)
  | reject (id : String)
  | ask

/-- Apply one move to the state. -/
def applyOp (c : Catalog) (st : GameState) : Op → GameState
  | Op.answer key w => processAnswer c st key w
  | Op.reject id => rejectGuess st id
  | Op.ask => st

/-- Apply a sequence of moves from left to right. -/
def applyOps (c : Catalog) (st : GameState) (ops : List Op) : GameState :=
  ops.foldl (applyOp c) st

/-- The engine's step relation: one move relates a state to the state
the engine leaves behind. -/
inductive Step (c : Catalog) : GameState → Op → GameState → Prop where
  | answer (st : GameState) (key : String) (w : ℚ) :
      Step c st (Op.answer key w) (processAnswer c st key w)
  | reject (st : GameState) (id : String) :
      Step c st (Op.reject id) (rejectGuess st id)
  | ask (st : GameState) : Step c st Op.ask st

/-- A run of the engine: a state reached from a start state by a given
sequence of moves. -/
inductive Trace (c : Catalog) : GameState → List Op → GameState → Prop where
  | nil (st : GameState) : Trace c st [] st
  | cons {st st' st'' : GameState} {op : Op} {ops : List Op} :
      Step c st op st' → Trace c st' ops st'' → Trace c st (op :: ops) st''

/-- The reachable game states: the fresh state, closed under answers
and under rejection of a catalog entity (every guess the engine
proposes is drawn from the ranking over catalog entities). -/
inductive Reachable (c : Catalog) : GameState → Prop where
  | init : Reachable c (initGame c)
  | answer {st : GameState} (key : String) (w : ℚ) :
      Reachable c st → Reachable c (processAnswer c st key w)
  | reject {st : GameState} (id : String) :
      id ∈ entityIds c → Reachable c st → Reachable c (rejectGuess st id)

/-- A record is corrupt when it is not an object at all, a required
field is missing from the top-level object or bound to a value of the
wrong type (`scores` not an object, `asked` or `excluded_entities` not
an array, `turn_count` not a non-negative integer), a score value is
not a number, an identifier element is not a string, or it references
an entity or question identifier absent from the catalog. -/
def corruptRecord (c : Catalog) (j : JValue) : Prop :=
  (∀ fields, j ≠ JValue.obj fields) ∨
  (∃ fields, j = JValue.obj fields ∧
    (fields.lookup "scores" = none ∨ fields.lookup "asked" = none ∨
     fields.lookup "excluded_entities" = none ∨ fields.lookup "turn_count" = none)) ∨
  (∃ fields v, j = JValue.obj fields ∧
    fields.lookup "scores" = some v ∧ ∀ sj, v ≠ JValue.obj sj) ∨
  (∃ fields v, j = JValue.obj fields ∧
    fields.lookup "asked" = some v ∧ ∀ aj, v ≠ JValue.arr aj) ∨
  (∃ fields v, j = JValue.obj fields ∧
    fields.lookup "excluded_entities" = some v ∧ ∀ ej, v ≠ JValue.arr ej) ∨
  (∃ fields v, j = JValue.obj fields ∧
    fields.lookup "turn_count" = some v ∧
    ∀ q : ℚ, q.den = 1 ∧ 0 ≤ q.num → v ≠ JValue.num q) ∨
  (∃ fields sj k v, j = JValue.obj fields ∧
    fields.lookup "scores" = some (JValue.obj sj) ∧ (k, v) ∈ sj ∧
    (k ∉ entityIds c ∨ ∀ q : ℚ, v ≠ JValue.num q)) ∨
  (∃ fields aj v, j = JValue.obj fields ∧
    fields.lookup "asked" = some (JValue.arr aj) ∧ v ∈ aj ∧ ∀ s, v ≠ JValue.str s) ∨
  (∃ fields aj s, j = JValue.obj fields ∧
    fields.lookup "asked" = some (JValue.arr aj) ∧ JValue.str s ∈ aj ∧ s ∉ questionIds c) ∨
  (∃ fields ej v, j = JValue.obj fields ∧
    fields.lookup "excluded_entities" = some (JValue.arr ej) ∧ v ∈ ej ∧
    ∀ s, v ≠ JValue.str s) ∨
  (∃ fields ej s, j = JValue.obj fields ∧
    fields.lookup "excluded_entities" = some (JValue.arr ej) ∧ JValue.str s ∈ ej ∧
    s ∉ entityIds c)

/-- Well-formedness of a stored record with respect to a catalog: an
object holding the four required fields with their expected types,
every score a number keyed by a catalog entity, every identifier a
string drawn from the catalog, and a non-negative integer turn
counter. -/
def wellFormedRecord (c : Catalog) (j : JValue) : Prop :=
  ∃ fields, j = JValue.obj fields ∧
    (∃ sj, fields.lookup "scores" = some (JValue.obj sj) ∧
      ∀ p ∈ sj, (∃ q : ℚ, p.2 = JValue.num q) ∧ p.1 ∈ entityIds c) ∧
    (∃ aj, fields.lookup "asked" = some (JValue.arr aj) ∧
      ∀ v ∈ aj, ∃ s, v = JValue.str s ∧ s ∈ questionIds c) ∧
    (∃ ej, fields.lookup "excluded_entities" = some (JValue.arr ej) ∧
      ∀ v ∈ ej, ∃ s, v = JValue.str s ∧ s ∈ entityIds c) ∧
    (∃ q : ℚ, fields.lookup "turn_count" = some (JValue.num q) ∧
      q.den = 1 ∧ 0 ≤ q.num)

/-- Well-formedness of a state with respect to a catalog: every
identifier it mentions belongs to the catalog. -/
def WF (c : Catalog) (st : GameState) : Prop :=
  (∀ p ∈ st.scores, p.1 ∈ entityIds c) ∧
  (∀ q ∈ st.asked, q ∈ questionIds c) ∧
  (∀ i ∈ st.excludedEntities, i ∈ entityIds c)

/-- The two-entity example catalog of the spec's scenario section. -/
def entA : Entity := ⟨"alice", "Alice", [("tall", 1)]⟩

/-- Second example entity. -/
def entB : Entity := ⟨"bob", "Bob", [("tall", 0)]⟩

/-- Example question probing the `tall` attribute. -/
def q1 : Question := ⟨"q1", "tall", "Are they tall?"⟩

/-- Example catalog with two entities and one question. -/
def c0 : Catalog := ⟨[entA, entB], [q1]⟩

/-- Example fresh state over `c0`. -/
def st0 : GameState := initGame c0

/-- Example session table holding session `1` at the fresh state. -/
def db0 : Db := [(1, encodeState st0)]

/-- Example session table holding session `2` at an empty (corrupt)
record. -/
def dbBad : Db := [(2, JValue.obj [])]

/-- A failed boolean string comparison gives a disequality. -/
lemma ne_of_beq_false {a b : String} (h : (a == b) = false) : ¬ a = b := by
  intro he
  subst he
  simp at h

/-- Closed form of the answer-string mapping used by `submit_answer`. -/
lemma answerWeight_eq (s : String) :
    answerWeight s =
      (if pyLower s = "no" then some (0 : ℚ)
       else if pyLower s = "probably no" then some (1/4)
       else if pyLower s = "probably yes" then some (3/4)
       else if pyLower s = "yes" then some 1
       else none) := by
  unfold answerWeight valid_answers
  cases hb1 : pyLower s == "no" with
  | true => simp [List.lookup, hb1, eq_of_beq hb1]
  | false =>
    cases hb2 : pyLower s == "probably no" with
    | true => simp [List.lookup, hb1, hb2, ne_of_beq_false hb1, eq_of_beq hb2]
    | false =>
      cases hb3 : pyLower s == "probably yes" with
      | true =>
        simp [List.lookup, hb1, hb2, hb3, ne_of_beq_false hb1, ne_of_beq_false hb2,
          eq_of_beq hb3]
      | false =>
        cases hb4 : pyLower s == "yes" with
        | true =>
          simp [List.lookup, hb1, hb2, hb3, hb4, ne_of_beq_false hb1,
            ne_of_beq_false hb2, ne_of_beq_false hb3, eq_of_beq hb4]
        | false =>
          simp [List.lookup, hb1, hb2, hb3, hb4, ne_of_beq_false hb1,
            ne_of_beq_false hb2, ne_of_beq_false hb3, ne_of_beq_false hb4]

/-- A string outside the four accepted words maps to no weight. -/
lemma answerWeight_eq_none {s : String}
    (h : pyLower s ∉ ["no", "probably no", "probably yes", "yes"]) :
    answerWeight s = none := by
  rw [answerWeight_eq]
  simp only [List.mem_cons, List.not_mem_nil, or_false] at h
  push_neg at h
  obtain ⟨h1, h2, h3, h4⟩ := h
  simp [h1, h2, h3, h4]

/-- C10: the answer mapping at the public interface is case-insensitive
and total over exactly the four words "no", "probably no",
"probably yes", "yes": a submitted answer is accepted iff its
lowercased form is one of them, and it maps to 0, 1/4, 3/4, 1
respectively. -/
theorem submit_answer_mapping (s : String) :
    ((answerWeight s).isSome ↔
      pyLower s ∈ ["no", "probably no", "probably yes", "yes"]) ∧
    answerWeight s =
      (if pyLower s = "no" then some (0 : ℚ)
       else if pyLower s = "probably no" then some (1/4)
       else if pyLower s = "probably yes" then some (3/4)
       else if pyLower s = "yes" then some 1
       else none) := by
  refine ⟨?_, answerWeight_eq s⟩
  rw [answerWeight_eq]
  by_cases h1 : pyLower s = "no" <;>
    by_cases h2 : pyLower s = "probably no" <;>
      by_cases h3 : pyLower s = "probably yes" <;>
        by_cases h4 : pyLower s = "yes" <;>
          simp [h1, h2, h3, h4]

/-- C9: a confirmed guess is echoed back unvalidated — for any
caller-supplied name, `confirm_guess` with `user_confirms_correct` set
answers `finished_won` with exactly that name and certainty 1, deleting
the session row, never comparing the name to the engine's own
ranking. -/
theorem confirm_guess_echoes (c : Catalog) (db : Db)
    (p : GuessConfirmationPayload) (st : GameState)
    (hfound : get_akinator_instance c db p.session_id = Except.ok st)
    (hc : p.user_confirms_correct = true) :
    confirm_akinator_guess c db p =
      Except.ok (db.filter (fun r => !(r.1 == p.session_id)),
        { outcome := "finished_won"
          guess := p.guessed_character_name
          certainty := 1
          top_candidates := topCandidates st 5 }) := by
  unfold confirm_akinator_guess
  rw [hfound, hc]
  simp

/-- Witness for C9 at a concrete session: the name "Zaphod" is not in
the catalog, yet it is echoed back as a finished, certain win. -/
theorem confirm_guess_echoes_witness :
    confirm_akinator_guess c0 db0 ⟨1, "Zaphod", true⟩ =
      Except.ok (db0.filter (fun r => !(r.1 == 1)),
        { outcome := "finished_won"
          guess := "Zaphod"
          certainty := 1
          top_candidates := topCandidates st0 5 }) :=
  confirm_guess_echoes c0 db0 ⟨1, "Zaphod", true⟩ st0 (by rfl) (by rfl)

/-- C2: an answer outside the accepted graded levels is rejected with
the 400 invalid-answer error before `process_answer` runs, and the
persisted session state is exactly what it was before the request. -/
theorem invalid_answer_leaves_state (c : Catalog) (db : Db) (p : AnswerPayload)
    (st : GameState)
    (hfound : get_akinator_instance c db p.session_id = Except.ok st)
    (hbad : pyLower p.answer ∉ ["no", "probably no", "probably yes", "yes"]) :
    submit_answer c db p = Except.error ⟨400, "Invalid answer."⟩ ∧
    submitAnswerDb c db p = db := by
  have hw : answerWeight p.answer = none := answerWeight_eq_none hbad
  constructor
  · unfold submit_answer
    rw [hfound, hw]
  · unfold submitAnswerDb submit_answer
    rw [hfound, hw]

/-- Witness for C2: submitting the answer "maybe" for an existing
session yields the 400 error and leaves the table untouched. -/
theorem invalid_answer_leaves_state_witness :
    submit_answer c0 db0 ⟨1, "tall", "maybe"⟩ = Except.error ⟨400, "Invalid answer."⟩ ∧
    submitAnswerDb c0 db0 ⟨1, "tall", "maybe"⟩ = db0 :=
  invalid_answer_leaves_state c0 db0 ⟨1, "tall", "maybe"⟩ st0 (by rfl) (by decide)

/-- C5: `shouldGuess` holds exactly when at least one of its three
triggers holds — the score margin is reached, or no discriminating
question remains, or the turn ceiling is hit; each alone suffices. -/
theorem shouldGuess_iff_triggers (cfg : Config) (c : Catalog) (asked : List String)
    (scores : List (String × ℚ)) (excluded : List String) (turnCount : Nat) :
    shouldGuess cfg c asked scores excluded turnCount = true ↔
      (marginReached cfg scores excluded = true ∨
       selectQuestion c asked scores excluded = none ∨
       cfg.maxTurns ≤ turnCount) := by
  unfold shouldGuess
  split_ifs with h1 h2
  · simp [h1]
  · simp [h1, Option.isNone_iff_eq_none.mp h2]
  · rw [Option.isNone_iff_eq_none] at h2
    simp [h1, h2]

/-- C8: `rank` returns its pairs in descending score order with ties
between equal scores broken by entity identifier. -/
theorem rank_sorted (scores : List (String × ℚ)) (excluded : List String)
    (topN : Nat) :
    List.Sorted (fun a b : String × ℚ => b.2 < a.2 ∨ (a.2 = b.2 ∧ a.1 ≤ b.1))
      (rank scores excluded topN) := by
  have h := List.sorted_insertionSort rankLe
    (scores.filter (fun p => !(excluded.contains p.1)))
  exact List.Pairwise.sublist (List.take_sublist topN _) h

/-- Looking up a key after a key-preserving map rewrites the value. -/
lemma lookup_map_snd (f : String → ℚ → ℚ) (l : List (String × ℚ)) (k : String) :
    (l.map (fun p => (p.1, f p.1 p.2))).lookup k = (l.lookup k).map (f k) := by
  induction l with
  | nil => rfl
  | cons hd tl ih =>
    obtain ⟨a, b⟩ := hd
    cases hb : k == a with
    | true =>
      have hk : k = a := eq_of_beq hb
      subst hk
      simp [List.lookup]
    | false => simp [List.lookup, hb, ih]

/-- Canonical form of the score table after `processAnswer`: every
entry keeps its key, excluded entries keep their value, the others gain
the answer's contribution. -/
lemma processAnswer_scores (c : Catalog) (st : GameState) (key : String) (a : ℚ) :
    (processAnswer c st key a).scores =
      st.scores.map (fun p => (p.1,
        if st.excludedEntities.contains p.1 then p.2
        else p.2 + contribution (entityWeight c p.1 key) a)) := by
  unfold processAnswer
  refine List.map_congr_left ?_
  intro p _
  by_cases h : p.1 ∈ st.excludedEntities <;> simp [h]

/-- Score lookup after `processAnswer`. -/
lemma processAnswer_lookup (c : Catalog) (st : GameState) (key : String)
    (a : ℚ) (id : String) :
    (processAnswer c st key a).scores.lookup id =
      (st.scores.lookup id).map (fun s =>
        if st.excludedEntities.contains id then s
        else s + contribution (entityWeight c id key) a) := by
  rw [processAnswer_scores]
  exact lookup_map_snd
    (fun k v => if st.excludedEntities.contains k then v
      else v + contribution (entityWeight c k key) a) st.scores id

/-- A key outside a list is not contained in it. -/
lemma contains_eq_false_of_not_mem {a : String} {l : List String} (h : a ∉ l) :
    l.contains a = false := by
  cases hc : l.contains a
  · rfl
  · exact absurd (List.elem_iff.mp hc) h

/-- C4: score-update monotonicity — for two non-excluded entities and
any question and answer weight, when entity `e`'s attribute weight is
at distance no greater than entity `o`'s from the answer, `o`'s
contribution does not exceed `e`'s, the relative score of `e` over `o`
never decreases, and in general a smaller distance never produces a
smaller contribution. -/
theorem score_update_monotone (c : Catalog) (st : GameState) (key : String)
    (a : ℚ) (e o : String) (se so : ℚ)
    (he : e ∉ st.excludedEntities) (ho : o ∉ st.excludedEntities)
    (hse : st.scores.lookup e = some se) (hso : st.scores.lookup o = some so)
    (hd : |entityWeight c e key - a| ≤ |entityWeight c o key - a|) :
    (processAnswer c st key a).scores.lookup e =
        some (se + contribution (entityWeight c e key) a) ∧
    (processAnswer c st key a).scores.lookup o =
        some (so + contribution (entityWeight c o key) a) ∧
    contribution (entityWeight c o key) a ≤ contribution (entityWeight c e key) a ∧
    se - so ≤ (se + contribution (entityWeight c e key) a) -
        (so + contribution (entityWeight c o key) a) ∧
    (∀ w1 w2 : ℚ, |w1 - a| ≤ |w2 - a| → contribution w2 a ≤ contribution w1 a) := by
  have hmono : ∀ w1 w2 : ℚ, |w1 - a| ≤ |w2 - a| →
      contribution w2 a ≤ contribution w1 a := by
    intro w1 w2 h
    unfold contribution
    linarith
  have hce := contains_eq_false_of_not_mem he
  have hco := contains_eq_false_of_not_mem ho
  have h1 : (processAnswer c st key a).scores.lookup e =
      some (se + contribution (entityWeight c e key) a) := by
    rw [processAnswer_lookup, hse]
    simp [he]
  have h2 : (processAnswer c st key a).scores.lookup o =
      some (so + contribution (entityWeight c o key) a) := by
    rw [processAnswer_lookup, hso]
    simp [ho]
  have h3 := hmono _ _ hd
  exact ⟨h1, h2, h3, by linarith, hmono⟩

/-- Witness for C4: on the example catalog, answering `tall` with 1
matches Alice's weight exactly and Bob's not at all, and Alice's
relative score over Bob does not decrease. -/
theorem score_update_monotone_witness :
    (processAnswer c0 st0 "tall" 1).scores.lookup "alice" =
        some ((0 : ℚ) + contribution (entityWeight c0 "alice" "tall") 1) ∧
    (processAnswer c0 st0 "tall" 1).scores.lookup "bob" =
        some ((0 : ℚ) + contribution (entityWeight c0 "bob" "tall") 1) ∧
    contribution (entityWeight c0 "bob" "tall") 1 ≤
        contribution (entityWeight c0 "alice" "tall") 1 ∧
    (0 : ℚ) - 0 ≤ ((0 : ℚ) + contribution (entityWeight c0 "alice" "tall") 1) -
        ((0 : ℚ) + contribution (entityWeight c0 "bob" "tall") 1) ∧
    (∀ w1 w2 : ℚ, |w1 - 1| ≤ |w2 - 1| → contribution w2 1 ≤ contribution w1 1) :=
  score_update_monotone c0 st0 "tall" 1 "alice" "bob" 0 0
    (by decide) (by decide) (by rfl) (by rfl)
    (by rw [show entityWeight c0 "alice" "tall" = 1 from rfl,
          show entityWeight c0 "bob" "tall" = 0 from rfl]
        norm_num)

/-- Excluded entities only grow under any move. -/
lemma excluded_subset_applyOp (c : Catalog) (st : GameState) (op : Op)
    {id : String} (h : id ∈ st.excludedEntities) :
    id ∈ (applyOp c st op).excludedEntities := by
  cases op with
  | answer key w => exact h
  | reject i => exact List.mem_cons_of_mem i h
  | ask => exact h

/-- Excluded entities only grow under any sequence of moves. -/
lemma excluded_subset_applyOps (c : Catalog) (ops : List Op) :
    ∀ (st : GameState) {id : String}, id ∈ st.excludedEntities →
      id ∈ (applyOps c st ops).excludedEntities := by
  induction ops with
  | nil => intro st id h; exact h
  | cons op rest ih =>
    intro st id h
    exact ih (applyOp c st op) (excluded_subset_applyOp c st op h)

/-- `rank` never returns an excluded entity. -/
lemma rank_not_excluded {scores : List (String × ℚ)} {excluded : List String}
    {n : Nat} {p : String × ℚ} (hp : p ∈ rank scores excluded n) :
    p.1 ∉ excluded := by
  intro hmem
  have h1 : p ∈ (scores.filter (fun q => !(excluded.contains q.1))).insertionSort rankLe :=
    List.mem_of_mem_take hp
  have h2 : p ∈ scores.filter (fun q => !(excluded.contains q.1)) :=
    (List.perm_insertionSort rankLe _).mem_iff.mp h1
  have h3 := (List.mem_filter.mp h2).2
  have h4 : excluded.contains p.1 = true := List.elem_iff.mpr hmem
  rw [h4] at h3
  simp at h3

/-- C3: monotonic exclusion — once an entity is excluded, after any
further sequence of answer, next-question and reject moves it is still
excluded, never appears in the output of `rank`, and is never the
proposed guess. -/
theorem excluded_stays_excluded (c : Catalog) (st : GameState) (id : String)
    (ops : List Op) (n : Nat) (h : id ∈ st.excludedEntities) :
    id ∈ (applyOps c st ops).excludedEntities ∧
    (∀ p ∈ rank (applyOps c st ops).scores (applyOps c st ops).excludedEntities n,
      p.1 ≠ id) ∧
    (∀ g, proposeGuess (applyOps c st ops) = some g → g.1 ≠ id) := by
  have hmem := excluded_subset_applyOps c ops st h
  refine ⟨hmem, ?_, ?_⟩
  · intro p hp hpe
    exact rank_not_excluded hp (hpe ▸ hmem)
  · intro g hg hge
    have : g ∈ rank (applyOps c st ops).scores (applyOps c st ops).excludedEntities
        (applyOps c st ops).scores.length :=
      List.mem_of_mem_head? (by rw [← proposeGuess, hg]; exact rfl)
    exact rank_not_excluded this (hge ▸ hmem)

/-- Witness for C3: with Alice excluded, after an answer, a question
and a rejection of Bob, Alice stays excluded, out of the ranking and
never proposed. -/
theorem excluded_stays_excluded_witness :
    "alice" ∈ (applyOps c0 (rejectGuess st0 "alice")
        [Op.answer "tall" 1, Op.ask, Op.reject "bob"]).excludedEntities ∧
    (∀ p ∈ rank (applyOps c0 (rejectGuess st0 "alice")
        [Op.answer "tall" 1, Op.ask, Op.reject "bob"]).scores
        (applyOps c0 (rejectGuess st0 "alice")
        [Op.answer "tall" 1, Op.ask, Op.reject "bob"]).excludedEntities 5,
      p.1 ≠ "alice") ∧
    (∀ g, proposeGuess (applyOps c0 (rejectGuess st0 "alice")
        [Op.answer "tall" 1, Op.ask, Op.reject "bob"]) = some g → g.1 ≠ "alice") :=
  excluded_stays_excluded c0 (rejectGuess st0 "alice") "alice"
    [Op.answer "tall" 1, Op.ask, Op.reject "bob"] 5 (by decide)

/-- The step relation is deterministic. -/
lemma step_deterministic {c : Catalog} {st s1 s2 : GameState} {op : Op}
    (h1 : Step c st op s1) (h2 : Step c st op s2) : s1 = s2 := by
  cases h1 <;> cases h2 <;> rfl

/-- Runs of the same moves from the same state end in the same state. -/
lemma trace_deterministic {c : Catalog} {ops : List Op} :
    ∀ {st s1 s2 : GameState}, Trace c st ops s1 → Trace c st ops s2 → s1 = s2 := by
  induction ops with
  | nil =>
    intro st s1 s2 h1 h2
    cases h1
    cases h2
    rfl
  | cons op rest ih =>
    intro st s1 s2 h1 h2
    cases h1 with
    | cons hs1 ht1 =>
      cases h2 with
      | cons hs2 ht2 =>
        have := step_deterministic hs1 hs2
        subst this
        exact ih ht1 ht2

/-- C6: determinism — replaying the same sequence of moves from a fresh
game over the same catalog always ends in the same state and hence
yields the identical score ranking; there is no hidden randomness. -/
theorem replay_deterministic (c : Catalog) (ops : List Op) (s1 s2 : GameState)
    (n : Nat) (h1 : Trace c (initGame c) ops s1)
    (h2 : Trace c (initGame c) ops s2) :
    s1 = s2 ∧
    rank s1.scores s1.excludedEntities n = rank s2.scores s2.excludedEntities n := by
  have he := trace_deterministic h1 h2
  subst he
  exact ⟨rfl, rfl⟩

/-- Witness for C6: two replays of the same one-answer run from a fresh
game over the example catalog coincide. -/
theorem replay_deterministic_witness :
    processAnswer c0 (initGame c0) "tall" 1 = processAnswer c0 (initGame c0) "tall" 1 ∧
    rank (processAnswer c0 (initGame c0) "tall" 1).scores
        (processAnswer c0 (initGame c0) "tall" 1).excludedEntities 5 =
      rank (processAnswer c0 (initGame c0) "tall" 1).scores
        (processAnswer c0 (initGame c0) "tall" 1).excludedEntities 5 :=
  replay_deterministic c0 [Op.answer "tall" 1] _ _ 5
    (Trace.cons (Step.answer (initGame c0) "tall" 1) (Trace.nil _))
    (Trace.cons (Step.answer (initGame c0) "tall" 1) (Trace.nil _))

/-- Monadic bind on a successful decode step reduces. -/
lemma except_bind_ok {ε α β : Type} (a : α) (f : α → Except ε β) :
    (Except.ok a >>= f) = f a := rfl

/-- Monadic bind on a failed decode step propagates the error. -/
lemma except_bind_error {ε α β : Type} (e : ε) (f : α → Except ε β) :
    ((Except.error e : Except ε α) >>= f) = Except.error e := rfl

/-- The fresh state is well formed. -/
lemma WF_init (c : Catalog) : WF c (initGame c) := by
  refine ⟨?_, ?_, ?_⟩
  · intro p hp
    obtain ⟨e, he, rfl⟩ := List.mem_map.mp hp
    exact List.mem_map.mpr ⟨e, he, rfl⟩
  · intro q hq
    exact absurd hq (List.not_mem_nil q)
  · intro i hi
    exact absurd hi (List.not_mem_nil i)

/-- Processing an answer preserves well-formedness: keys of the score
table are kept, and only identifiers of catalog questions are marked
asked. -/
lemma WF_processAnswer {c : Catalog} {st : GameState} (h : WF c st)
    (key : String) (a : ℚ) : WF c (processAnswer c st key a) := by
  obtain ⟨h1, h2, h3⟩ := h
  refine ⟨?_, ?_, h3⟩
  · intro p hp
    rw [processAnswer_scores] at hp
    obtain ⟨q, hq, rfl⟩ := List.mem_map.mp hp
    exact h1 q hq
  · intro q hq
    have hq' : q ∈ st.asked ++ ((c.questions.filter (fun qu => qu.attr == key)).map Question.id) := hq
    rcases List.mem_append.mp hq' with h | h
    · exact h2 q h
    · obtain ⟨qu, hqu, rfl⟩ := List.mem_map.mp h
      exact List.mem_map.mpr ⟨qu, List.mem_of_mem_filter hqu, rfl⟩

/-- Rejecting a catalog entity preserves well-formedness. -/
lemma WF_reject {c : Catalog} {st : GameState} (h : WF c st) {id : String}
    (hid : id ∈ entityIds c) : WF c (rejectGuess st id) := by
  obtain ⟨h1, h2, h3⟩ := h
  refine ⟨h1, h2, ?_⟩
  intro i hi
  rcases List.mem_cons.mp hi with rfl | hi
  · exact hid
  · exact h3 i hi

/-- Every reachable state is well formed. -/
lemma reachable_WF {c : Catalog} {st : GameState} (h : Reachable c st) :
    WF c st := by
  induction h with
  | init => exact WF_init c
  | answer key w _ ih => exact WF_processAnswer ih key w
  | reject id hid _ ih => exact WF_reject ih hid

/-- Decoding the encoded score table of a well-formed state gives it
back. -/
lemma decodeScores_encode (c : Catalog) (l : List (String × ℚ))
    (h : ∀ p ∈ l, p.1 ∈ entityIds c) :
    decodeScores c (l.map (fun p => (p.1, JValue.num p.2))) = Except.ok l := by
  induction l with
  | nil => rfl
  | cons hd tl ih =>
    obtain ⟨a, b⟩ := hd
    have ha : a ∈ entityIds c := h (a, b) (List.mem_cons_self _ _)
    have hc : (entityIds c).contains a = true := List.elem_iff.mpr ha
    have ht := ih (fun p hp => h p (List.mem_cons_of_mem _ hp))
    simp [decodeScores, hc, ht, ha]

/-- Decoding an encoded identifier list drawn from `valid` gives it
back. -/
lemma decodeIds_encode (valid : List String) (err : String → StateCorruptError)
    (l : List String) (h : ∀ s ∈ l, s ∈ valid) :
    decodeIds valid err (l.map JValue.str) = Except.ok l := by
  induction l with
  | nil => rfl
  | cons hd tl ih =>
    have ha : hd ∈ valid := h hd (List.mem_cons_self _ _)
    have hc : valid.contains hd = true := List.elem_iff.mpr ha
    have ht := ih (fun s hs => h s (List.mem_cons_of_mem _ hs))
    simp [decodeIds, hc, ht, ha]

/-- Decoding an encoded turn counter gives it back. -/
lemma decodeTurn_encode (n : Nat) : decodeTurn (JValue.num n) = Except.ok n := by
  rw [show decodeTurn (JValue.num (n : ℚ)) =
      (if ((n : ℚ)).den = 1 ∧ 0 ≤ ((n : ℚ)).num then Except.ok ((n : ℚ)).num.toNat
       else Except.error StateCorruptError.malformed) from rfl]
  rw [if_pos]
  · simp
  · exact ⟨Rat.den_natCast n, by simp⟩

/-- C1: round trip — for every reachable game state, decoding the
encoded record against the same catalog yields the original state:
`scores`, `asked`, `excludedEntities` and `turnCount` are preserved
exactly. -/
theorem state_roundtrip (c : Catalog) (st : GameState) (h : Reachable c st) :
    decodeState c (encodeState st) = Except.ok st := by
  obtain ⟨h1, h2, h3⟩ := reachable_WF h
  have hs := decodeScores_encode c st.scores h1
  have ha := decodeIds_encode (questionIds c) StateCorruptError.unknownQuestion
    st.asked h2
  have he := decodeIds_encode (entityIds c) StateCorruptError.unknownEntity
    st.excludedEntities h3
  have ht := decodeTurn_encode st.turnCount
  simp [decodeState, encodeState, asObj, asArr, getField, List.lookup,
    except_bind_ok, except_bind_error, hs, ha, he, ht]

/-- Witness for C1: a state reached by one answer and one rejected
guess round-trips through encode and decode. -/
theorem state_roundtrip_witness :
    decodeState c0 (encodeState (rejectGuess (processAnswer c0 st0 "tall" 1) "alice")) =
      Except.ok (rejectGuess (processAnswer c0 st0 "tall" 1) "alice") :=
  state_roundtrip c0 (rejectGuess (processAnswer c0 st0 "tall" 1) "alice")
    (Reachable.reject "alice" (by decide)
      (Reachable.answer "tall" 1 Reachable.init))

/-- A successful score decode only holds numeric values keyed by
catalog entities. -/
lemma decodeScores_ok_mem {c : Catalog} {l : List (String × JValue)}
    {r : List (String × ℚ)} (h : decodeScores c l = Except.ok r) :
    ∀ p ∈ l, (∃ q : ℚ, p.2 = JValue.num q) ∧ p.1 ∈ entityIds c := by
  induction l generalizing r with
  | nil => intro p hp; exact absurd hp (List.not_mem_nil p)
  | cons hd tl ih =>
    intro p hp
    obtain ⟨a, v⟩ := hd
    cases v with
    | num q =>
      rw [show decodeScores c ((a, JValue.num q) :: tl) =
          (if (entityIds c).contains a then
            match decodeScores c tl with
            | Except.ok r => Except.ok ((a, q) :: r)
            | Except.error e => Except.error e
          else Except.error (StateCorruptError.unknownEntity a)) from rfl] at h
      by_cases hc : (entityIds c).contains a = true
      · rw [if_pos hc] at h
        rcases List.mem_cons.mp hp with rfl | hp'
        · exact ⟨⟨q, rfl⟩, List.elem_iff.mp hc⟩
        · cases hrec : decodeScores c tl with
          | ok r' => exact ih hrec p hp'
          | error e => rw [hrec] at h; exact absurd h (by simp)
      · rw [if_neg hc] at h
        exact absurd h (by simp)
    | str s => exact absurd h (by simp [decodeScores])
    | arr l2 => exact absurd h (by simp [decodeScores])
    | obj l2 => exact absurd h (by simp [decodeScores])

/-- A successful identifier-list decode only holds strings drawn from
`valid`. -/
lemma decodeIds_ok_mem {valid : List String} {err : String → StateCorruptError}
    {l : List JValue} {r : List String} (h : decodeIds valid err l = Except.ok r) :
    ∀ v ∈ l, ∃ s, v = JValue.str s ∧ s ∈ valid := by
  induction l generalizing r with
  | nil => intro v hv; exact absurd hv (List.not_mem_nil _)
  | cons hd tl ih =>
    intro v hv
    cases hd with
    | str t =>
      rw [show decodeIds valid err (JValue.str t :: tl) =
          (if valid.contains t then
            match decodeIds valid err tl with
            | Except.ok r => Except.ok (t :: r)
            | Except.error e => Except.error e
          else Except.error (err t)) from rfl] at h
      by_cases hc : valid.contains t = true
      · rw [if_pos hc] at h
        rcases List.mem_cons.mp hv with rfl | hv'
        · exact ⟨t, rfl, List.elem_iff.mp hc⟩
        · cases hrec : decodeIds valid err tl with
          | ok r' => exact ih hrec v hv'
          | error e => rw [hrec] at h; exact absurd h (by simp)
      · rw [if_neg hc] at h
        exact absurd h (by simp)
    | num q => exact absurd h (by simp [decodeIds])
    | arr l2 => exact absurd h (by simp [decodeIds])
    | obj l2 => exact absurd h (by simp [decodeIds])

/-- A successful turn-counter decode comes from a non-negative integer
number. -/
lemma decodeTurn_ok_shape {v : JValue} {t : Nat} (h : decodeTurn v = Except.ok t) :
    ∃ q : ℚ, v = JValue.num q ∧ q.den = 1 ∧ 0 ≤ q.num := by
  cases v with
  | num q =>
    refine ⟨q, rfl, ?_⟩
    rw [show decodeTurn (JValue.num q) =
        (if q.den = 1 ∧ 0 ≤ q.num then Except.ok q.num.toNat
         else Except.error StateCorruptError.malformed) from rfl] at h
    by_cases hc : q.den = 1 ∧ 0 ≤ q.num
    · exact hc
    · rw [if_neg hc] at h
      exact absurd h (by simp)
  | str s => exact absurd h (by simp [decodeTurn])
  | arr l => exact absurd h (by simp [decodeTurn])
  | obj l => exact absurd h (by simp [decodeTurn])

/-- A successful decode pins down the full shape of the record: the
four required fields are present with their expected types, scores are
numbers, identifiers are strings, and every identifier mentioned
belongs to the catalog. -/
lemma decodeState_ok_wellFormed {c : Catalog} {j : JValue} {st : GameState}
    (h : decodeState c j = Except.ok st) : wellFormedRecord c j := by
  cases j with
  | num q => exact absurd h (by simp [decodeState, asObj, except_bind_error])
  | str s => exact absurd h (by simp [decodeState, asObj, except_bind_error])
  | arr l => exact absurd h (by simp [decodeState, asObj, except_bind_error])
  | obj fields =>
    rw [show decodeState c (JValue.obj fields) = (do
        let sj ← asObj (← getField fields "scores")
        let aj ← asArr (← getField fields "asked")
        let ej ← asArr (← getField fields "excluded_entities")
        let tj ← getField fields "turn_count"
        let s ← decodeScores c sj
        let a ← decodeIds (questionIds c) StateCorruptError.unknownQuestion aj
        let e ← decodeIds (entityIds c) StateCorruptError.unknownEntity ej
        let t ← decodeTurn tj
        Except.ok ⟨s, a, e, t⟩) from rfl] at h
    cases h1 : fields.lookup "scores" with
    | none => simp [getField, h1, except_bind_error] at h
    | some v1 =>
      cases v1 with
      | num q => simp [getField, h1, asObj, except_bind_ok, except_bind_error] at h
      | str s => simp [getField, h1, asObj, except_bind_ok, except_bind_error] at h
      | arr l => simp [getField, h1, asObj, except_bind_ok, except_bind_error] at h
      | obj sj =>
        rw [show getField fields "scores" = Except.ok (JValue.obj sj) from
          by simp [getField, h1]] at h
        rw [except_bind_ok] at h
        rw [show asObj (JValue.obj sj) = Except.ok sj from rfl] at h
        rw [except_bind_ok] at h
        cases h2 : fields.lookup "asked" with
        | none => simp [getField, h2, except_bind_error] at h
        | some v2 =>
          cases v2 with
          | num q => simp [getField, h2, asArr, except_bind_ok, except_bind_error] at h
          | str s => simp [getField, h2, asArr, except_bind_ok, except_bind_error] at h
          | obj l => simp [getField, h2, asArr, except_bind_ok, except_bind_error] at h
          | arr aj =>
            rw [show getField fields "asked" = Except.ok (JValue.arr aj) from
              by simp [getField, h2]] at h
            rw [except_bind_ok] at h
            rw [show asArr (JValue.arr aj) = Except.ok aj from rfl] at h
            rw [except_bind_ok] at h
            cases h3 : fields.lookup "excluded_entities" with
            | none => simp [getField, h3, except_bind_error] at h
            | some v3 =>
              cases v3 with
              | num q =>
                simp [getField, h3, asArr, except_bind_ok, except_bind_error] at h
              | str s =>
                simp [getField, h3, asArr, except_bind_ok, except_bind_error] at h
              | obj l =>
                simp [getField, h3, asArr, except_bind_ok, except_bind_error] at h
              | arr ej =>
                rw [show getField fields "excluded_entities" =
                    Except.ok (JValue.arr ej) from by simp [getField, h3]] at h
                rw [except_bind_ok] at h
                rw [show asArr (JValue.arr ej) = Except.ok ej from rfl] at h
                rw [except_bind_ok] at h
                cases h4 : fields.lookup "turn_count" with
                | none => simp [getField, h4, except_bind_error] at h
                | some v4 =>
                  rw [show getField fields "turn_count" = Except.ok v4 from
                    by simp [getField, h4]] at h
                  rw [except_bind_ok] at h
                  cases h5 : decodeScores c sj with
                  | error e => simp [h5, except_bind_error] at h
                  | ok s =>
                    rw [h5, except_bind_ok] at h
                    cases h6 : decodeIds (questionIds c)
                        StateCorruptError.unknownQuestion aj with
                    | error e => simp [h6, except_bind_error] at h
                    | ok a =>
                      rw [h6, except_bind_ok] at h
                      cases h7 : decodeIds (entityIds c)
                          StateCorruptError.unknownEntity ej with
                      | error e => simp [h7, except_bind_error] at h
                      | ok e =>
                        rw [h7, except_bind_ok] at h
                        cases h8 : decodeTurn v4 with
                        | error e2 => simp [h8, except_bind_error] at h
                        | ok t =>
                          obtain ⟨q, hq, hden, hnum⟩ := decodeTurn_ok_shape h8
                          subst hq
                          exact ⟨fields, rfl,
                            ⟨sj, h1, decodeScores_ok_mem h5⟩,
                            ⟨aj, h2, decodeIds_ok_mem h6⟩,
                            ⟨ej, h3, decodeIds_ok_mem h7⟩,
                            ⟨q, h4, hden, hnum⟩⟩

/-- A corrupt record is never well formed: each corruption case
contradicts one component of well-formedness. -/
lemma corrupt_not_wellFormed {c : Catalog} {j : JValue} (h : corruptRecord c j)
    (hw : wellFormedRecord c j) : False := by
  obtain ⟨fields, rfl, ⟨sj, hsj, hsm⟩, ⟨aj, haj, ham⟩, ⟨ej, hej, hem⟩,
    q, htc, hden, hnum⟩ := hw
  rcases h with hob | ⟨fields', hf, hmiss⟩ | ⟨fields', v, hf, hl, hnv⟩ |
    ⟨fields', v, hf, hl, hnv⟩ | ⟨fields', v, hf, hl, hnv⟩ | ⟨fields', v, hf, hl, hnv⟩ |
    ⟨fields', sj', k, v, hf, hl, hkv, hbad⟩ | ⟨fields', aj', v, hf, hl, hv, hns⟩ |
    ⟨fields', aj', s, hf, hl, hv, hk⟩ | ⟨fields', ej', v, hf, hl, hv, hns⟩ |
    ⟨fields', ej', s, hf, hl, hv, hk⟩
  · exact hob fields rfl
  · injection hf with hff
    subst hff
    rcases hmiss with hm | hm | hm | hm
    · rw [hm] at hsj; cases hsj
    · rw [hm] at haj; cases haj
    · rw [hm] at hej; cases hej
    · rw [hm] at htc; cases htc
  · injection hf with hff
    subst hff
    rw [hl] at hsj
    injection hsj with hv2
    exact hnv sj hv2
  · injection hf with hff
    subst hff
    rw [hl] at haj
    injection haj with hv2
    exact hnv aj hv2
  · injection hf with hff
    subst hff
    rw [hl] at hej
    injection hej with hv2
    exact hnv ej hv2
  · injection hf with hff
    subst hff
    rw [hl] at htc
    injection htc with hv2
    exact hnv q ⟨hden, hnum⟩ hv2
  · injection hf with hff
    subst hff
    rw [hl] at hsj
    injection hsj with hv2
    injection hv2 with hv3
    subst hv3
    rcases hbad with hk | hnn
    · exact hk (hsm (k, v) hkv).2
    · obtain ⟨q2, hq2⟩ := (hsm (k, v) hkv).1
      exact hnn q2 hq2
  · injection hf with hff
    subst hff
    rw [hl] at haj
    injection haj with hv2
    injection hv2 with hv3
    subst hv3
    obtain ⟨s, hvs, _⟩ := ham v hv
    exact hns s hvs
  · injection hf with hff
    subst hff
    rw [hl] at haj
    injection haj with hv2
    injection hv2 with hv3
    subst hv3
    obtain ⟨s2, hs2, hmem⟩ := ham (JValue.str s) hv
    injection hs2 with hs3
    subst hs3
    exact hk hmem
  · injection hf with hff
    subst hff
    rw [hl] at hej
    injection hej with hv2
    injection hv2 with hv3
    subst hv3
    obtain ⟨s, hvs, _⟩ := hem v hv
    exact hns s hvs
  · injection hf with hff
    subst hff
    rw [hl] at hej
    injection hej with hv2
    injection hv2 with hv3
    subst hv3
    obtain ⟨s2, hs2, hmem⟩ := hem (JValue.str s) hv
    injection hs2 with hs3
    subst hs3
    exact hk hmem

/-- C7: decode fails on a corrupt record — whenever the stored record
is not an object, is missing a required field, binds a required field
to a value of the wrong type (including a malformed turn counter), has
a non-numeric score or a non-string identifier, or references an
entity or question identifier absent from the catalog, `decodeState`
never returns a state, it returns a `StateCorruptError`, and session
rehydration surfaces the failure as a 500 error rather than a
partially loaded state. -/
theorem decode_rejects_corrupt (c : Catalog) (j : JValue) (db : Db) (sid : Nat)
    (hdb : db.lookup sid = some j) (h : corruptRecord c j) :
    (∀ st : GameState, decodeState c j ≠ Except.ok st) ∧
    (∃ e, decodeState c j = Except.error e) ∧
    get_akinator_instance c db sid =
      Except.error ⟨500, "Failed to load game state."⟩ := by
  have hno : ∀ st : GameState, decodeState c j ≠ Except.ok st := by
    intro st hok
    exact corrupt_not_wellFormed h (decodeState_ok_wellFormed hok)
  have herr : ∃ e, decodeState c j = Except.error e := by
    cases hd : decodeState c j with
    | ok st => exact absurd hd (hno st)
    | error e => exact ⟨e, rfl⟩
  obtain ⟨e, he⟩ := herr
  exact ⟨hno, ⟨e, he⟩, by simp [get_akinator_instance, hdb, he]⟩

/-- Witness for C7 at a concrete corrupt record: the empty object is
missing every required field, and rehydrating session 2 yields the 500
error. -/
theorem decode_rejects_corrupt_witness :
    (∀ st : GameState, decodeState c0 (JValue.obj []) ≠ Except.ok st) ∧
    (∃ e, decodeState c0 (JValue.obj []) = Except.error e) ∧
    get_akinator_instance c0 dbBad 2 =
      Except.error ⟨500, "Failed to load game state."⟩ :=
  decode_rejects_corrupt c0 (JValue.obj []) dbBad 2 (by rfl)
    (Or.inr (Or.inl ⟨[], rfl, Or.inl rfl⟩))

end WhoDatDev
